import Mathlib

/-!
Shallow embedding of `src/main.py` (Catawiki price analyzer) and proofs of the
spec's claims about it.

Numeric values carried by the script (prices, fees, estimates) are modelled
exactly over the rationals `ℚ`; Python floats are treated as exact arithmetic.
Timestamps are integers (milliseconds).  Network effects are modelled by an
explicit environment (`Env`) supplying the build-id resolver's result and the
HTTP responses the script would receive, so that a run of `main` becomes a
pure function of that environment.
-/

set_option maxRecDepth 16000

namespace Catawiki

/-- Constant from `main.py` line 16: brokerage fee percentage (9%). -/
def CATAWIKI_BROKERAGE_FEE_PERCENTAGE : ℚ := 9 / 100

/-- Constant from `main.py` line 17: fixed delivery fee in EUR. -/
def FIXED_DELIVERY_FEE_EUR : ℚ := 40

/-- The `buyNow` sub-object of a raw lot: optional `price_eur` key. -/
structure BuyNowObj where
  price_eur : Option ℚ
  deriving DecidableEq, Repr

/-- The `bid` sub-object of a raw lot's `live` object: optional `EUR` key. -/
structure BidObj where
  eur : Option ℚ
  deriving DecidableEq, Repr

/-- The `live` sub-object of a raw lot: optional `bid` and `biddingEndTime`. -/
structure LiveObj where
  bid : Option BidObj
  biddingEndTime : Option ℤ
  deriving DecidableEq, Repr

/-- A raw listing (lot) as fetched from the JSON API.  Each field of interest
may be absent (`none`), mirroring Python dictionary `.get` access. -/
structure Lot where
  id : Option ℕ
  title : Option String
  subtitle : Option String
  buyNow : Option BuyNowObj
  live : Option LiveObj
  biddingStartTime : Option String
  url : Option String
  thumbImageUrl : Option String
  deriving DecidableEq, Repr

/-- A normalized record, one per lot: exactly the nine keys built by
`parse_lots_to_records` (`main.py` lines 156-166). -/
structure NormalizedRecord where
  ID : Option ℕ
  Title : Option String
  Subtitle : Option String
  BuyNowPriceEUR : Option ℚ
  HighestBidEUR : Option ℚ
  TimeRemaining : Option String
  BiddingStart : Option String
  URL : Option String
  Thumbnail : Option String
  deriving DecidableEq, Repr

/-- Embedding of `format_time_remaining` (`main.py` lines 122-140), with the current clock
made explicit.  Both times are in milliseconds since the epoch; the Python
`timedelta` decomposition (days / in-day seconds / discarded microseconds) is
reproduced on the millisecond difference. -/
def format_time_remaining (now_ms end_ms : ℤ) : String :=
  let delta_ms : ℤ := end_ms - now_ms
  if delta_ms ≤ 0 then "Ended"
  else
    let d : ℕ := delta_ms.toNat / 86400000
    let secs : ℕ := delta_ms.toNat % 86400000 / 1000
    let hr : ℕ := secs / 3600
    let remainder : ℕ := secs % 3600
    let mi : ℕ := remainder / 60
    let parts : List String := []
    let parts := if 0 < d then parts ++ [toString d ++ "d"] else parts
    let parts := if 0 < hr ∨ 0 < d then parts ++ [toString hr ++ "h"] else parts
    let parts := parts ++ [toString mi ++ "m"]
    String.intercalate " " parts

/-- The body of the per-lot loop of `parse_lots_to_records` (`main.py`
lines 148-167): one raw lot to one `NormalizedRecord`.  The current clock is
an explicit parameter because `format_time_remaining` reads it.  Python
truthiness is mirrored: `buy_now.get(...) if buy_now else None` yields `none`
whenever no `price_eur` is reachable, and a `biddingEndTime` of `0` is falsy
and hence gives no time-remaining string. -/
def parseRecord (now_ms : ℤ) (lot : Lot) : NormalizedRecord :=
  let price_eur : Option ℚ :=
    match lot.buyNow with
    | some b => b.price_eur
    | none => none
  let live : LiveObj := (lot.live).getD ⟨none, none⟩
  let highest_bid : Option ℚ :=
    match live.bid with
    | some b => b.eur
    | none => none
  let bidding_end : Option ℤ := live.biddingEndTime
  let time_remaining : Option String :=
    match bidding_end with
    | some t => if t = 0 then none else some (format_time_remaining now_ms t)
    | none => none
  { ID := lot.id
    Title := lot.title
    Subtitle := lot.subtitle
    BuyNowPriceEUR := price_eur
    HighestBidEUR := highest_bid
    TimeRemaining := time_remaining
    BiddingStart := lot.biddingStartTime
    URL := lot.url
    Thumbnail := lot.thumbImageUrl }

/-- Embedding of `parse_lots_to_records` (`main.py` lines 143-168): the append loop over
the lots is a map of `parseRecord`. -/
def parse_lots_to_records (now_ms : ℤ) (lots : List Lot) : List NormalizedRecord :=
  lots.map (parseRecord now_ms)

/-- Outcome of an HTTP request: a transport / decode error (anything the
Python code catches as `RequestException`, `JSONDecodeError`, ...) or a
successfully decoded body. -/
inductive HttpResult (α : Type) where
  | err : HttpResult α
  | ok (body : α) : HttpResult α
  deriving DecidableEq, Repr

/-- The lots block of a page response: optional `lots` and `total` keys.
`none` models a missing key (Python `KeyError`). -/
structure LotsBlock where
  lots : Option (List Lot)
  total : Option ℕ
  deriving DecidableEq, Repr

/-- The `pageProps` object of a page response, with the two mode-dependent
blocks `searchLots` and `categoryLots`. -/
structure PagePropsObj where
  searchLots : Option LotsBlock
  categoryLots : Option LotsBlock
  deriving DecidableEq, Repr

/-- The decoded JSON body of a page response. -/
structure PageJson where
  pageProps : Option PagePropsObj
  deriving DecidableEq, Repr

/-- The nested lookup of `main.py` lines 102-107: which block is read depends
on whether a search query is present; `none` at any level is a `KeyError`. -/
def blockOf (search_query : Option String) (d : PageJson) : Option LotsBlock :=
  match d.pageProps with
  | none => none
  | some pp =>
    match search_query with
    | some _ => pp.searchLots
    | none => pp.categoryLots

/-- Embedding of `fetch_page` (`main.py` lines 68-119) as a function of the HTTP response
it would receive.  A transport error or a missing key on the nested path
yields `([], 0)` (the `except` branches at lines 110-119); otherwise the items
list and the total count are returned. -/
def fetch_page (search_query : Option String) (resp : HttpResult PageJson) :
    List Lot × ℕ :=
  match resp with
  | .err => ([], 0)
  | .ok d =>
    match blockOf search_query d with
    | none => ([], 0)
    | some blk =>
      match blk.lots, blk.total with
      | some l, some t => (l, t)
      | some _, none => ([], 0)
      | none, _ => ([], 0)

/-- The three valuation labels the Gemini reply parser recognises
(`main.py` line 222), already lowercased. -/
inductive Valuation where
  | overvalued
  | undervalued
  | fairlyValued
  deriving DecidableEq, Repr

/-- The first component of `get_market_estimate`'s result: a parsed numeric
estimate, the raw reply text (returned when parsing fails, line 228), or
Python `None`. -/
inductive EstimateResult where
  | num (q : ℚ)
  | raw (s : String)
  | absent
  deriving DecidableEq, Repr

/-- Whether an `EstimateResult` is the raw-text degraded case. -/
def EstimateResult.isRaw : EstimateResult → Bool
  | .raw _ => true
  | _ => false

/-- Match a literal pattern case-insensitively at the head of the input,
returning the rest of the input on success. -/
def matchCI : List Char → List Char → Option (List Char)
  | [], rest => some rest
  | _ :: _, [] => none
  | p :: ps, c :: rest =>
    if p.toLower = c.toLower then matchCI ps rest else none

/-- Case-sensitive literal match at the head of the input. -/
def matchExact : List Char → List Char → Option (List Char)
  | [], rest => some rest
  | _ :: _, [] => none
  | p :: ps, c :: rest => if p = c then matchExact ps rest else none

/-- Whether a literal pattern occurs (case-sensitively) anywhere in the
input: Python's `"Valuation:" in text`. -/
def containsPat (pat : List Char) : List Char → Bool
  | [] => pat.isEmpty
  | c :: rest =>
    match matchExact pat (c :: rest) with
    | some _ => true
    | none => containsPat pat rest

/-- The rational denoted by an integer digit string and a (possibly empty)
fraction digit string, as Python's `float` of the matched group. -/
def ratOfDigits (intPart fracPart : List Char) : ℚ :=
  let iv : ℕ := intPart.foldl (fun a c => 10 * a + (c.toNat - 48)) 0
  let fv : ℕ := fracPart.foldl (fun a c => 10 * a + (c.toNat - 48)) 0
  (iv : ℚ) + (fv : ℚ) / ((10 : ℚ) ^ fracPart.length)

/-- Match the price pattern
`Estimated market price:\s*(\d+(\.\d+)?)\s*EUR` (case-insensitive,
`main.py` line 217) at the head of the input, returning the captured number. -/
def matchPriceAt (cs : List Char) : Option ℚ :=
  match matchCI "estimated market price:".toList cs with
  | none => none
  | some rest =>
    let rest := rest.dropWhile Char.isWhitespace
    let ds := rest.takeWhile Char.isDigit
    let rest := rest.dropWhile Char.isDigit
    if ds.isEmpty then none
    else
      let fracState : List Char × List Char :=
        match rest with
        | '.' :: r =>
          let fs := r.takeWhile Char.isDigit
          if fs.isEmpty then ([], '.' :: r) else (fs, r.dropWhile Char.isDigit)
        | _ => ([], rest)
      let rest := fracState.2.dropWhile Char.isWhitespace
      match matchCI "eur".toList rest with
      | none => none
      | some _ => some (ratOfDigits ds fracState.1)

/-- Search for the price pattern as `re.search` does: try every start position, leftmost
match wins. -/
def searchPrice : List Char → Option ℚ
  | [] => none
  | c :: rest =>
    match matchPriceAt (c :: rest) with
    | some q => some q
    | none => searchPrice rest

/-- Match the valuation pattern
`Valuation:\s*(overvalued|undervalued|fairly valued)` (case-insensitive,
`main.py` line 222) at the head of the input. -/
def matchValuationAt (cs : List Char) : Option Valuation :=
  match matchCI "valuation:".toList cs with
  | none => none
  | some rest =>
    let rest := rest.dropWhile Char.isWhitespace
    match matchCI "overvalued".toList rest with
    | some _ => some .overvalued
    | none =>
      match matchCI "undervalued".toList rest with
      | some _ => some .undervalued
      | none =>
        match matchCI "fairly valued".toList rest with
        | some _ => some .fairlyValued
        | none => none

/-- Search for the valuation pattern at every start position. -/
def searchValuation : List Char → Option Valuation
  | [] => none
  | c :: rest =>
    match matchValuationAt (c :: rest) with
    | some v => some v
    | none => searchValuation rest

/-- The parse of a Gemini reply text (`main.py` lines 213-230), applied to an
already stripped text: extract the price, extract the valuation only if the
literal (case-sensitive) key `Valuation:` occurs, and if either is missing
return the raw text with no label. -/
def parseGeminiReply (text : String) : EstimateResult × Option Valuation :=
  let est_price : Option ℚ := searchPrice text.toList
  let valuation : Option Valuation :=
    if containsPat "Valuation:".toList text.toList then
      searchValuation text.toList
    else none
  match est_price, valuation with
  | some p, some v => (.num p, some v)
  | some _, none => (.raw text, none)
  | none, _ => (.raw text, none)

/-- The decoded body of a Gemini generation response:
`some t` when `candidates[0].content.parts[0].text` is present with value `t`,
`none` when the expected content structure is missing (line 232). -/
structure GeminiBody where
  text : Option String
  deriving DecidableEq, Repr

/-- Embedding of `get_market_estimate` (`main.py` lines 171-243) as a function of the HTTP
response it would receive.  Transport / JSON-decode errors and a missing
content structure yield `(absent, none)`; otherwise the stripped text is
parsed by `parseGeminiReply`. -/
def get_market_estimate (resp : HttpResult GeminiBody) :
    EstimateResult × Option Valuation :=
  match resp with
  | .err => (.absent, none)
  | .ok body =>
    match body.text with
    | none => (.absent, none)
    | some t => parseGeminiReply t.trim

/-- One row of the exported table, in the explicit column order of
`main.py` lines 347-363.  `MarketPriceEstimateEUR` is `Option ℚ` because a
run that reaches the export has no raw-text estimate left in the column (a
raw string would make the ratio division at lines 339-341 raise). -/
structure OutputRow where
  ID : Option ℕ
  Title : Option String
  Subtitle : Option String
  URL : Option String
  Thumbnail : Option String
  TimeRemaining : Option String
  BiddingStart : Option String
  BuyNowPriceEUR : Option ℚ
  HighestBidEUR : Option ℚ
  CatawikiFeeEUR : ℚ
  DeliveryFeeEUR : ℚ
  FinalPriceEUR : ℚ
  MarketPriceEstimateEUR : Option ℚ
  FinalVsEstimate : Option ℚ
  ValuationCol : Option Valuation
  deriving DecidableEq, Repr

/-- The per-row content of the dataframe computations of `main.py`
lines 328-344: fee columns from the (zero-filled) highest bid, the ratio set
only where the estimate is a present non-zero number, and the valuation
label appended. -/
def mkRow (rec : NormalizedRecord) (ev : EstimateResult × Option Valuation) :
    OutputRow :=
  let bid0 : ℚ := rec.HighestBidEUR.getD 0
  let fee : ℚ := bid0 * CATAWIKI_BROKERAGE_FEE_PERCENTAGE
  let final : ℚ := bid0 + fee + FIXED_DELIVERY_FEE_EUR
  let est : Option ℚ :=
    match ev.1 with
    | .num q => some q
    | .raw _ => none
    | .absent => none
  let ratioField : Option ℚ :=
    match est with
    | some e => if e = 0 then none else some (final / e)
    | none => none
  { ID := rec.ID
    Title := rec.Title
    Subtitle := rec.Subtitle
    URL := rec.URL
    Thumbnail := rec.Thumbnail
    TimeRemaining := rec.TimeRemaining
    BiddingStart := rec.BiddingStart
    BuyNowPriceEUR := rec.BuyNowPriceEUR
    HighestBidEUR := rec.HighestBidEUR
    CatawikiFeeEUR := fee
    DeliveryFeeEUR := FIXED_DELIVERY_FEE_EUR
    FinalPriceEUR := final
    MarketPriceEstimateEUR := est
    FinalVsEstimate := ratioField
    ValuationCol := ev.2 }

/-- Assembling the exported table (`main.py` lines 327-364).  `none` models
the `TypeError` pandas raises at the ratio division (lines 339-341) when the
estimate column holds any raw reply string (mixed object dtype): such a run
crashes before exporting anything. -/
def buildRows (records : List NormalizedRecord)
    (evs : List (EstimateResult × Option Valuation)) : Option (List OutputRow) :=
  if evs.any (fun ev => ev.1.isRaw) then none
  else some (List.zipWith mkRow records evs)

/-- The environment a run of `main` executes against: the build-id resolver's
result, the page responses by page number, the Gemini responses by call
index, the search mode, and the clock. -/
structure Env where
  buildId : Option String
  http : ℕ → HttpResult PageJson
  gemini : ℕ → HttpResult GeminiBody
  searchQuery : Option String
  now : ℤ

/-- The observable outcome of a run of `main`. -/
inductive RunResult where
  | abortedNoBuildId
  | abortedEmptyFirstPage
  | crashed
  | completed (rows : List OutputRow)
  deriving DecidableEq, Repr

/-- A run of `main` together with its observable trace: which pages were
fetched (in order), the computed total page count (once it exists), and how
many Gemini enrichment calls were made. -/
structure RunTrace where
  result : RunResult
  pagesFetched : List ℕ
  totalPages : Option ℕ
  geminiCalls : ℕ
  deriving DecidableEq, Repr

/-- The pagination loop of `main.py` lines 291-298
(`for page_num in range(2, total_pages + 1)`), with `rem` the number of page
numbers left in the range.  Returns the accumulated records and the list of
page numbers actually fetched by the loop.  The record-count check precedes
the fetch, and an empty fetch result breaks the loop. -/
def fetchLoop (env : Env) (max_lots : ℕ) :
    ℕ → ℕ → List NormalizedRecord → List NormalizedRecord × List ℕ
  | 0, _, acc => (acc, [])
  | rem + 1, page, acc =>
    if max_lots ≤ acc.length then (acc, [])
    else
      let pr := fetch_page env.searchQuery (env.http page)
      if pr.1.isEmpty then (acc, [page])
      else
        let r :=
          fetchLoop env max_lots rem (page + 1)
            (acc ++ parse_lots_to_records env.now pr.1)
        (r.1, page :: r.2)

/-- The enrichment loop of `main.py` lines 308-325: one Gemini call per
collected record, in order. -/
def enrich (env : Env) (records : List NormalizedRecord) :
    List (EstimateResult × Option Valuation) :=
  (List.range records.length).map (fun i => get_market_estimate (env.gemini i))

/-- The phase of `main` after all records are collected (`main.py`
lines 303-375): one Gemini call per record, then the dataframe assembly.
Pages already fetched, the page count and the number of calls made are
recorded in the trace unconditionally; only the result depends on whether
the table assembly survives. -/
def finishRun (env : Env) (pages : List ℕ) (total_pages : ℕ)
    (all_records : List NormalizedRecord) : RunTrace :=
  { result :=
      match buildRows all_records (enrich env all_records) with
      | none => .crashed
      | some rows => .completed rows
    pagesFetched := pages
    totalPages := some total_pages
    geminiCalls := all_records.length }

/-- Embedding of `main` (`main.py` lines 246-375) as a pure function of the environment:
resolve the build id (early return if absent), fetch page 1 (early return if
empty), compute the page count, run the pagination loop from page 2, trim to
`max_lots`, enrich each record, and assemble the exported table. -/
def mainRun (env : Env) (max_lots : ℕ) : RunTrace :=
  match env.buildId with
  | none => ⟨.abortedNoBuildId, [], none, 0⟩
  | some _ =>
    let first := fetch_page env.searchQuery (env.http 1)
    if first.1.isEmpty then ⟨.abortedEmptyFirstPage, [1], none, 0⟩
    else
      let lots_per_page : ℕ := first.1.length
      let total_pages : ℕ := (first.2 + lots_per_page - 1) / lots_per_page
      let firstRecords := parse_lots_to_records env.now first.1
      let loopOut := fetchLoop env max_lots (total_pages - 1) 2 firstRecords
      finishRun env (1 :: loopOut.2) total_pages (loopOut.1.take max_lots)

/-- Modelled from the spec's words (section 4.3 / section 8), as the
refinement target for the formatting claim: a descending unit breakdown in
which the days part is omitted when days is zero, the hours part is present
exactly when days are present or hours are positive, and the minutes part is
always present. -/
def specTimeParts (d hr mi : ℕ) : List String :=
  (if 0 < d then [toString d ++ "d"] else []) ++
    (if 0 < d ∨ 0 < hr then [toString hr ++ "h"] else []) ++
    [toString mi ++ "m"]

/-- A lot with every field of interest absent. -/
def emptyLot : Lot :=
  { id := none, title := none, subtitle := none, buyNow := none, live := none,
    biddingStartTime := none, url := none, thumbImageUrl := none }

/-- A lot whose bidding ends at millisecond timestamp 1000000, used to
exhibit the clock dependence of the normalizer. -/
def lotT : Lot :=
  { id := none, title := none, subtitle := none, buyNow := none,
    live := some { bid := none, biddingEndTime := some 1000000 },
    biddingStartTime := none, url := none, thumbImageUrl := none }

/-- C4: for every bidding-end timestamp at or before the current time, the
time-remaining formatting function returns the string "Ended". -/
theorem C4_past_timestamp_ended (now_ms end_ms : ℤ) (h : end_ms ≤ now_ms) :
    format_time_remaining now_ms end_ms = "Ended" := by
  unfold format_time_remaining
  rw [if_pos (by omega : end_ms - now_ms ≤ 0)]

/-- Witness for C4 at a concrete past timestamp. -/
theorem C4_past_timestamp_ended_witness :
    (3 : ℤ) ≤ 5 ∧ format_time_remaining 5 3 = "Ended" :=
  ⟨by norm_num, C4_past_timestamp_ended 5 3 (by norm_num)⟩

/-- C5: for every bidding-end timestamp strictly in the future, the formatted
string is exactly the spec's descending unit breakdown: days omitted when
zero, hours present exactly when days are present or hours positive, minutes
always present. -/
theorem C5_future_breakdown (now_ms end_ms : ℤ) (h : now_ms < end_ms) :
    format_time_remaining now_ms end_ms =
      String.intercalate " "
        (specTimeParts ((end_ms - now_ms).toNat / 86400000)
          ((end_ms - now_ms).toNat % 86400000 / 1000 / 3600)
          ((end_ms - now_ms).toNat % 86400000 / 1000 % 3600 / 60)) := by
  unfold format_time_remaining
  rw [if_neg (by omega : ¬(end_ms - now_ms ≤ 0))]
  by_cases hd : 0 < (end_ms - now_ms).toNat / 86400000 <;>
    by_cases hh : 0 < (end_ms - now_ms).toNat % 86400000 / 1000 / 3600 <;>
    simp [specTimeParts, hd, hh]

/-- Witness for C5 at a concrete future timestamp (1 day, 1 hour, 1 minute,
1 second ahead). -/
theorem C5_future_breakdown_witness :
    (0 : ℤ) < 90061000 ∧
      format_time_remaining 0 90061000 =
        String.intercalate " "
          (specTimeParts (((90061000 : ℤ) - 0).toNat / 86400000)
            (((90061000 : ℤ) - 0).toNat % 86400000 / 1000 / 3600)
            (((90061000 : ℤ) - 0).toNat % 86400000 / 1000 % 3600 / 60)) :=
  ⟨by norm_num, C5_future_breakdown 0 90061000 (by norm_num)⟩

/-- C9 as stated is false: the record normalizer's output does not depend
only on the listing, because the Time Remaining field reads the current
clock.  Concretely, the same lot normalized at two different times yields
two different records. -/
theorem C9_counterexample_clock_dependence :
    parseRecord 0 lotT ≠ parseRecord 2000000 lotT := by
  with_unfolding_all decide

/-- C9 (amended): the record normalizer is pure given the clock: its output
depends only on the listing and the current time, and every field other than
Time Remaining depends only on the listing. -/
theorem C9_pure_given_clock (t1 t2 : ℤ) (lot : Lot) :
    (parseRecord t1 lot).ID = (parseRecord t2 lot).ID ∧
    (parseRecord t1 lot).Title = (parseRecord t2 lot).Title ∧
    (parseRecord t1 lot).Subtitle = (parseRecord t2 lot).Subtitle ∧
    (parseRecord t1 lot).BuyNowPriceEUR = (parseRecord t2 lot).BuyNowPriceEUR ∧
    (parseRecord t1 lot).HighestBidEUR = (parseRecord t2 lot).HighestBidEUR ∧
    (parseRecord t1 lot).BiddingStart = (parseRecord t2 lot).BiddingStart ∧
    (parseRecord t1 lot).URL = (parseRecord t2 lot).URL ∧
    (parseRecord t1 lot).Thumbnail = (parseRecord t2 lot).Thumbnail :=
  ⟨rfl, rfl, rfl, rfl, rfl, rfl, rfl, rfl⟩

/-- C10: the normalizer is total on lots with absent fields, preserves length
and order (the i-th output record is the parse of the i-th lot), and maps
every absent source field to an absent value.  The output structure
`NormalizedRecord` has exactly the nine keys of the source record literal. -/
theorem C10_parse_totality (now_ms : ℤ) (lots : List Lot) :
    (parse_lots_to_records now_ms lots).length = lots.length ∧
    (∀ i : ℕ,
      (parse_lots_to_records now_ms lots)[i]? = (lots[i]?).map (parseRecord now_ms)) ∧
    (∀ lot : Lot,
      (lot.id = none → (parseRecord now_ms lot).ID = none) ∧
      (lot.title = none → (parseRecord now_ms lot).Title = none) ∧
      (lot.subtitle = none → (parseRecord now_ms lot).Subtitle = none) ∧
      (lot.buyNow = none → (parseRecord now_ms lot).BuyNowPriceEUR = none) ∧
      (lot.live = none →
        (parseRecord now_ms lot).HighestBidEUR = none ∧
        (parseRecord now_ms lot).TimeRemaining = none) ∧
      (∀ lv, lot.live = some lv → lv.bid = none →
        (parseRecord now_ms lot).HighestBidEUR = none) ∧
      (∀ lv, lot.live = some lv → lv.biddingEndTime = none →
        (parseRecord now_ms lot).TimeRemaining = none) ∧
      (lot.biddingStartTime = none → (parseRecord now_ms lot).BiddingStart = none) ∧
      (lot.url = none → (parseRecord now_ms lot).URL = none) ∧
      (lot.thumbImageUrl = none → (parseRecord now_ms lot).Thumbnail = none)) := by
  refine ⟨List.length_map lots (parseRecord now_ms), fun i => ?_, fun lot => ?_⟩
  · simp [parse_lots_to_records]
  · refine ⟨fun h => by simp [parseRecord, h], fun h => by simp [parseRecord, h],
      fun h => by simp [parseRecord, h], fun h => by simp [parseRecord, h],
      fun h => ?_, fun lv h hb => ?_, fun lv h hb => ?_,
      fun h => by simp [parseRecord, h], fun h => by simp [parseRecord, h],
      fun h => by simp [parseRecord, h]⟩
    · exact ⟨by simp [parseRecord, h], by simp [parseRecord, h]⟩
    · simp [parseRecord, h, hb]
    · simp [parseRecord, h, hb]

/-- Witness for C10: a one-element list whose lot has every field absent
yields one record with absent values. -/
theorem C10_parse_totality_witness :
    (parse_lots_to_records 0 [emptyLot]).length = [emptyLot].length ∧
    (parseRecord 0 emptyLot).ID = none ∧
    (parseRecord 0 emptyLot).HighestBidEUR = none ∧
    (parseRecord 0 emptyLot).TimeRemaining = none :=
  ⟨(C10_parse_totality 0 [emptyLot]).1,
    ((C10_parse_totality 0 [emptyLot]).2.2 emptyLot).1 rfl,
    (((C10_parse_totality 0 [emptyLot]).2.2 emptyLot).2.2.2.2.1 rfl).1,
    (((C10_parse_totality 0 [emptyLot]).2.2 emptyLot).2.2.2.2.1 rfl).2⟩

/-- Any element of a `zipWith` is the image of elements of the two lists. -/
lemma exists_of_mem_zipWith {α β γ : Type} {f : α → β → γ} :
    ∀ {l1 : List α} {l2 : List β} {x : γ}, x ∈ List.zipWith f l1 l2 →
      ∃ a b, a ∈ l1 ∧ b ∈ l2 ∧ x = f a b := by
  intro l1
  induction l1 with
  | nil => intro l2 x hx; simp at hx
  | cons a t ih =>
    intro l2 x hx
    cases l2 with
    | nil => simp at hx
    | cons b t2 =>
      rcases List.mem_cons.mp hx with h1 | h2
      · exact ⟨a, b, List.mem_cons_self a t, List.mem_cons_self b t2, h1⟩
      · rcases ih h2 with ⟨a1, b1, ha, hb, hx1⟩
        exact ⟨a1, b1, List.mem_cons_of_mem a ha, List.mem_cons_of_mem b hb, hx1⟩

/-- Every page number the pagination loop fetches lies in the half-open
range it was asked to walk. -/
lemma fetchLoop_pages_mem (env : Env) (m : ℕ) :
    ∀ (rem page : ℕ) (acc : List NormalizedRecord) (p : ℕ),
      p ∈ (fetchLoop env m rem page acc).2 → page ≤ p ∧ p < page + rem := by
  intro rem
  induction rem with
  | zero => intro page acc p hp; simp [fetchLoop] at hp
  | succ rem ih =>
    intro page acc p hp
    rw [fetchLoop] at hp
    by_cases hm : m ≤ acc.length
    · simp [hm] at hp
    · simp only [if_neg hm] at hp
      by_cases he : (fetch_page env.searchQuery (env.http page)).1.isEmpty
      · simp [he] at hp
        omega
      · simp only [if_neg he] at hp
        rcases List.mem_cons.mp hp with h1 | h2
        · omega
        · have h3 := ih (page + 1) _ p h2
          omega

/-- Completing `finishRun` means the table assembly survived: the rows are
built by `mkRow` from the records and their enrichment results. -/
lemma finishRun_completed (env : Env) (pages : List ℕ) (T : ℕ)
    (recs : List NormalizedRecord) (rows : List OutputRow)
    (h : (finishRun env pages T recs).result = .completed rows) :
    rows = List.zipWith mkRow recs (enrich env recs) := by
  unfold finishRun at h
  simp only at h
  rcases hbr : buildRows recs (enrich env recs) with _ | rows1
  · rw [hbr] at h; simp at h
  · rw [hbr] at h
    simp only [RunResult.completed.injEq] at h
    subst h
    unfold buildRows at hbr
    by_cases hany : (enrich env recs).any (fun ev => ev.1.isRaw)
    · rw [if_pos hany] at hbr; simp at hbr
    · rw [if_neg hany] at hbr
      exact (Option.some.injEq _ _ ▸ hbr).symm

/-- Inversion for a completed run: the exported rows are built by `mkRow`
from the collected records (already trimmed to `max_lots`) and their
enrichment results. -/
lemma mainRun_completed_shape (env : Env) (max_lots : ℕ) (rows : List OutputRow)
    (h : (mainRun env max_lots).result = .completed rows) :
    ∃ records : List NormalizedRecord, records.length ≤ max_lots ∧
      rows = List.zipWith mkRow records (enrich env records) := by
  cases hb : env.buildId with
  | none => simp [mainRun, hb] at h
  | some b =>
    simp only [mainRun, hb] at h
    by_cases he : (fetch_page env.searchQuery (env.http 1)).1.isEmpty
    · simp [he] at h
    · simp only [if_neg he] at h
      exact ⟨_, List.length_take_le _ _, finishRun_completed _ _ _ _ _ h⟩

/-- A normalized record with no buy-now price and a highest bid of 1000 EUR,
the scenario record of the spec. -/
def rec1000 : NormalizedRecord :=
  { ID := some 1, Title := some "Omega", Subtitle := none,
    BuyNowPriceEUR := none, HighestBidEUR := some 1000, TimeRemaining := none,
    BiddingStart := none, URL := none, Thumbnail := none }

/-- C1: in every exported row, the Catawiki fee is 9% of the (zero-filled)
highest bid, the delivery fee is the fixed constant, and the final price is
bid plus fee plus delivery; in particular the spec's scenario record (no
buy-now price, highest bid 1000 EUR) gets fee 90, delivery 40 and final
price 1130. -/
theorem C1_final_price_formula :
    (∀ (env : Env) (max_lots : ℕ) (rows : List OutputRow),
      (mainRun env max_lots).result = .completed rows →
      ∀ row ∈ rows,
        row.CatawikiFeeEUR =
          row.HighestBidEUR.getD 0 * CATAWIKI_BROKERAGE_FEE_PERCENTAGE ∧
        row.DeliveryFeeEUR = FIXED_DELIVERY_FEE_EUR ∧
        row.FinalPriceEUR =
          row.HighestBidEUR.getD 0 +
            row.HighestBidEUR.getD 0 * CATAWIKI_BROKERAGE_FEE_PERCENTAGE +
            FIXED_DELIVERY_FEE_EUR) ∧
    ((mkRow rec1000 (.absent, none)).CatawikiFeeEUR = 90 ∧
      (mkRow rec1000 (.absent, none)).DeliveryFeeEUR = 40 ∧
      (mkRow rec1000 (.absent, none)).FinalPriceEUR = 1130) := by
  constructor
  · intro env max_lots rows hres row hrow
    rcases mainRun_completed_shape env max_lots rows hres with ⟨recs, _, hshape⟩
    subst hshape
    rcases exists_of_mem_zipWith hrow with ⟨rec, ev, _, _, hx⟩
    subst hx
    exact ⟨rfl, rfl, rfl⟩
  · refine ⟨?_, rfl, ?_⟩ <;> with_unfolding_all decide

/-- Witness environment: build id present, page 1 returns one lot (the
scenario lot with highest bid 1000 and no buy-now price), every other
request errors, every Gemini call errors. -/
def lotW : Lot :=
  { id := some 1, title := some "Omega", subtitle := none, buyNow := none,
    live := some { bid := some { eur := some 1000 }, biddingEndTime := none },
    biddingStartTime := none, url := none, thumbImageUrl := none }

/-- The page-1 response body delivering `lotW` with a total of one lot. -/
def pageW : PageJson :=
  { pageProps :=
      some { searchLots := none,
             categoryLots := some { lots := some [lotW], total := some 1 } } }

/-- The witness environment delivering `pageW` on page 1. -/
def envW : Env :=
  { buildId := some "b",
    http := fun p => if p = 1 then .ok pageW else .err,
    gemini := fun _ => .err,
    searchQuery := none, now := 0 }

/-- The single exported row of a run against `envW`. -/
def rowW : OutputRow := mkRow (parseRecord 0 lotW) (.absent, none)

/-- Witness for C1: the run against `envW` completes with `rowW`, whose fee
columns satisfy the formula. -/
theorem C1_final_price_formula_witness :
    rowW.CatawikiFeeEUR =
      rowW.HighestBidEUR.getD 0 * CATAWIKI_BROKERAGE_FEE_PERCENTAGE ∧
    rowW.DeliveryFeeEUR = FIXED_DELIVERY_FEE_EUR ∧
    rowW.FinalPriceEUR =
      rowW.HighestBidEUR.getD 0 +
        rowW.HighestBidEUR.getD 0 * CATAWIKI_BROKERAGE_FEE_PERCENTAGE +
        FIXED_DELIVERY_FEE_EUR :=
  C1_final_price_formula.1 envW 5 [rowW]
    (by with_unfolding_all decide) rowW (List.mem_singleton.mpr rfl)

/-- C2: pagination respects the configured maximum and the computed page
count.  Under the consistency assumption that the reported total is at least
the first page's size, a completed run never exports more than `max_lots`
rows, and every page number fetched (page 1 included) is at most the
computed total number of pages. -/
theorem C2_pagination_bounds (env : Env) (max_lots : ℕ)
    (hcons : (fetch_page env.searchQuery (env.http 1)).1.length ≤
      (fetch_page env.searchQuery (env.http 1)).2) :
    (∀ rows : List OutputRow,
      (mainRun env max_lots).result = .completed rows →
      rows.length ≤ max_lots) ∧
    (∀ p ∈ (mainRun env max_lots).pagesFetched,
      ∀ T : ℕ, (mainRun env max_lots).totalPages = some T → p ≤ T) := by
  constructor
  · intro rows hres
    rcases mainRun_completed_shape env max_lots rows hres with ⟨recs, hlen, hshape⟩
    subst hshape
    calc (List.zipWith mkRow recs (enrich env recs)).length
        ≤ recs.length := by rw [List.length_zipWith]; omega
      _ ≤ max_lots := hlen
  · intro p hp T hT
    cases hb : env.buildId with
    | none => simp [mainRun, hb] at hp
    | some b =>
      simp only [mainRun, hb] at hp hT
      by_cases he : (fetch_page env.searchQuery (env.http 1)).1.isEmpty
      · simp [he] at hT
      · simp only [if_neg he, finishRun] at hp hT
        have hlen1 : 0 < (fetch_page env.searchQuery (env.http 1)).1.length := by
          cases hl : (fetch_page env.searchQuery (env.http 1)).1 with
          | nil => rw [hl] at he; simp at he
          | cons a t => simp [hl]
        have hT1 : 1 ≤ T := by
          rw [Option.some.injEq] at hT
          subst hT
          rw [Nat.le_div_iff_mul_le hlen1]
          omega
        rw [Option.some.injEq] at hT
        subst hT
        rcases List.mem_cons.mp hp with h1 | h2
        · omega
        · have h3 := fetchLoop_pages_mem env max_lots _ 2 _ p h2
          omega

/-- Witness for C2: in a run against `envW` (one lot available, `max_lots`
5) the exported row set has at most 5 rows and page 1 is within the one
computed page. -/
theorem C2_pagination_bounds_witness :
    [rowW].length ≤ 5 ∧ (1 : ℕ) ≤ 1 :=
  ⟨(C2_pagination_bounds envW 5 (by with_unfolding_all decide)).1 [rowW]
      (by with_unfolding_all decide),
    (C2_pagination_bounds envW 5 (by with_unfolding_all decide)).2 1
      (by with_unfolding_all decide) 1 (by with_unfolding_all decide)⟩

/-- C3: in every exported row, the ratio column is present if and only if
the market price estimate is a present non-zero number, and when present it
equals the final price divided by the estimate. -/
theorem C3_ratio_presence (env : Env) (max_lots : ℕ) (rows : List OutputRow)
    (hres : (mainRun env max_lots).result = .completed rows) :
    ∀ row ∈ rows,
      (row.FinalVsEstimate ≠ none ↔
        ∃ e : ℚ, row.MarketPriceEstimateEUR = some e ∧ e ≠ 0) ∧
      (∀ e : ℚ, row.MarketPriceEstimateEUR = some e → e ≠ 0 →
        row.FinalVsEstimate = some (row.FinalPriceEUR / e)) := by
  intro row hrow
  rcases mainRun_completed_shape env max_lots rows hres with ⟨recs, _, hshape⟩
  subst hshape
  rcases exists_of_mem_zipWith hrow with ⟨rec, ev, _, _, hx⟩
  subst hx
  rcases ev with ⟨e1, v⟩
  cases e1 with
  | num q =>
    by_cases hq : q = 0
    · subst hq
      constructor
      · simp [mkRow]
      · intro e he
        simp only [mkRow] at he
        simp at he
        subst he
        intro hne
        exact absurd rfl hne
    · constructor
      · simp [mkRow, hq]
      · intro e he
        simp only [mkRow] at he
        simp at he
        subst he
        intro _
        simp [mkRow, hq]
  | raw s => simp [mkRow]
  | absent => simp [mkRow]

/-- Witness environment for C3: as `envW` but Gemini answers with a
well-formed reply estimating 500 EUR. -/
def envW3 : Env :=
  { buildId := some "b",
    http := fun p => if p = 1 then .ok pageW else .err,
    gemini := fun _ =>
      .ok ⟨some "Estimated market price: 500 EUR. Valuation: overvalued."⟩,
    searchQuery := none, now := 0 }

/-- The single exported row of a run against `envW3`. -/
def rowW3 : OutputRow := mkRow (parseRecord 0 lotW) (.num 500, some .overvalued)

/-- Witness for C3: in the completed run against `envW3` the exported row's
ratio equals its final price divided by its 500 EUR estimate. -/
theorem C3_ratio_presence_witness :
    rowW3.FinalVsEstimate = some (rowW3.FinalPriceEUR / 500) :=
  (C3_ratio_presence envW3 5 [rowW3] (by with_unfolding_all decide) rowW3
      (List.mem_singleton.mpr rfl)).2 500
    (by with_unfolding_all decide) (by norm_num)

/-- C6 as stated is false: on a reply whose text does not match the expected
phrase pattern, the enricher does not discard the raw text and does not
yield an absent estimate — it returns the raw text in the estimate slot
(`main.py` line 228).  Concretely for the reply text "hello". -/
theorem C6_counterexample_raw_text_kept :
    get_market_estimate (HttpResult.ok ⟨some "hello"⟩) =
      (.raw "hello", none) ∧
    EstimateResult.raw "hello" ≠ EstimateResult.absent := by
  with_unfolding_all decide

/-- C6 (amended): on every reply whose (stripped) text does not fully match
the expected phrase pattern — no price match, no case-sensitive
`Valuation:` key, or no valuation match — the enricher returns the raw
stripped text in place of the estimate together with an absent valuation
label, without raising. -/
theorem C6_degraded_reply_returns_raw (t : String)
    (h : searchPrice t.trim.toList = none ∨
      containsPat "Valuation:".toList t.trim.toList = false ∨
      searchValuation t.trim.toList = none) :
    get_market_estimate (.ok ⟨some t⟩) = (.raw t.trim, none) := by
  unfold get_market_estimate parseGeminiReply
  simp only
  rcases h with h | h | h
  · rw [h]
  · rw [h]
    cases hp : searchPrice t.trim.toList <;> simp
  · have h2 : searchValuation t.trim.data = none := h
    cases hc : containsPat "Valuation:".toList t.trim.toList <;>
      cases hp : searchPrice t.trim.toList <;> simp [h, h2, hp]

/-- Witness for C6 (amended) at the reply text "hello", which matches no
part of the pattern. -/
theorem C6_degraded_reply_returns_raw_witness :
    get_market_estimate (HttpResult.ok ⟨some "hello"⟩) =
      (.raw "hello".trim, none) :=
  C6_degraded_reply_returns_raw "hello"
    (Or.inl (by with_unfolding_all decide))

/-- C7: a missing build identifier aborts the run before any page is fetched
and before any enrichment call; a present build identifier with an empty
first page aborts after fetching only page 1, again with no enrichment call
and nothing exported. -/
theorem C7_early_returns :
    (∀ (env : Env) (max_lots : ℕ), env.buildId = none →
      mainRun env max_lots =
        ⟨.abortedNoBuildId, [], none, 0⟩) ∧
    (∀ (env : Env) (max_lots : ℕ), env.buildId ≠ none →
      (fetch_page env.searchQuery (env.http 1)).1 = [] →
      mainRun env max_lots =
        ⟨.abortedEmptyFirstPage, [1], none, 0⟩) := by
  constructor
  · intro env max_lots hb
    simp [mainRun, hb]
  · intro env max_lots hb he
    rcases hbs : env.buildId with _ | b
    · exact absurd hbs hb
    · simp [mainRun, hbs, he]

/-- Environment with no resolvable build id. -/
def envNoBuild : Env :=
  { buildId := none, http := fun _ => .err, gemini := fun _ => .err,
    searchQuery := none, now := 0 }

/-- Environment with a build id but a failing page endpoint. -/
def envErr : Env :=
  { buildId := some "b", http := fun _ => .err, gemini := fun _ => .err,
    searchQuery := none, now := 0 }

/-- Witness for C7: both early returns at concrete environments. -/
theorem C7_early_returns_witness :
    mainRun envNoBuild 5 = ⟨.abortedNoBuildId, [], none, 0⟩ ∧
    mainRun envErr 5 = ⟨.abortedEmptyFirstPage, [1], none, 0⟩ :=
  ⟨C7_early_returns.1 envNoBuild 5 rfl,
    C7_early_returns.2 envErr 5 (by simp [envErr]) rfl⟩

/-- C8: `fetch_page` converts a transport error, as well as a response with
a missing key on the nested path, into `([], 0)` instead of raising; and
when a loop fetch comes back empty while more records were still wanted, the
pagination loop stops at that page — fetching no further page — and returns
the records collected so far rather than failing. -/
theorem C8_fetch_page_failures :
    (∀ search_query : Option String, fetch_page search_query .err = ([], 0)) ∧
    (∀ (search_query : Option String) (d : PageJson),
      (blockOf search_query d = none ∨
        ∃ blk, blockOf search_query d = some blk ∧
          (blk.lots = none ∨ blk.total = none)) →
      fetch_page search_query (.ok d) = ([], 0)) ∧
    (∀ (env : Env) (max_lots rem page : ℕ) (acc : List NormalizedRecord),
      acc.length < max_lots →
      (fetch_page env.searchQuery (env.http page)).1 = [] →
      fetchLoop env max_lots (rem + 1) page acc = (acc, [page])) := by
  refine ⟨fun _ => rfl, fun sq d h => ?_, fun env max_lots rem page acc hm he => ?_⟩
  · rcases h with h | ⟨blk, hblk, h⟩
    · simp [fetch_page, h]
    · rcases h with h | h
      · simp [fetch_page, hblk, h]
      · cases hl : blk.lots <;> simp [fetch_page, hblk, h, hl]
  · rw [fetchLoop]
    rw [if_neg (by omega : ¬ max_lots ≤ acc.length)]
    simp [he]

/-- Witness for C8: a concrete missing-key response and a concrete loop
state where page 7 errors. -/
theorem C8_fetch_page_failures_witness :
    fetch_page none (.ok ⟨none⟩) = ([], 0) ∧
    fetchLoop envW 5 1 7 [] = ([], [7]) :=
  ⟨C8_fetch_page_failures.2.1 none ⟨none⟩ (Or.inl rfl),
    C8_fetch_page_failures.2.2 envW 5 0 7 [] (by norm_num) rfl⟩

end Catawiki
